import Mathlib

/-!
Verification of the RevokeMe backend (Python) against its specification.

This file shallowly embeds the relevant parts of the source tree:
  backend/app/api/validate.py        (EIP-55 style checksum over SHA3-256)
  backend/app/chain/contracts.py     (unlimited-allowance predicate)
  backend/app/chain/logs.py          (log parsing and state reconstruction)
  backend/app/chain/rpc.py           (log fetching with failure isolation)
  backend/app/services/approval_scanner.py (scan orchestration)
  backend/app/services/spender_analyzer.py (known-protocol allowlist)
  backend/app/services/risk_engine.py      (risk scoring)

Python strings are embedded as Lean String where only equality, case
mapping and slicing matter, and as List Nat of ASCII byte values where
the byte-level hash of the address text matters (validate.py).
Python ints are Nat (they are non-negative everywhere relevant) or Int
where a subtraction can go negative (age computation). Python dicts used
as insertion-ordered maps are association lists. Fallible code (try and
except blocks, RPC calls) is embedded with Option and Except.
-/

/-! ## ASCII byte helpers (Python str.lower, str.upper, char classes) -/

/-- Python str.lower on a single ASCII byte. -/
def toLowerByte (c : Nat) : Nat := if 65 ≤ c ∧ c ≤ 90 then c + 32 else c

/-- Python str.upper on a single ASCII byte. -/
def toUpperByte (c : Nat) : Nat := if 97 ≤ c ∧ c ≤ 122 then c - 32 else c

/-- The test char in 0123456789 from validate.py, on an ASCII byte. -/
def isDigitByte (c : Nat) : Bool := 48 ≤ c && c ≤ 57

/-- An ASCII letter byte (either case). -/
def isLetterByte (c : Nat) : Bool := (65 ≤ c && c ≤ 90) || (97 ≤ c && c ≤ 122)

/-- A lowercase hex character byte: 0-9 or a-f. -/
def isLowerHexByte (c : Nat) : Bool := (48 ≤ c && c ≤ 57) || (97 ≤ c && c ≤ 102)

/-- Python str.lower on a single ASCII character. (Defined directly on
the character code so that it evaluates by kernel reduction.) -/
def lowerChar (c : Char) : Char :=
  if 65 ≤ c.toNat ∧ c.toNat ≤ 90 then Char.ofNat (c.toNat + 32) else c

/-- Python str.lower on a string, character by character (the strings
handled by this code base are ASCII). -/
def pyLower (s : String) : String := String.mk (s.data.map lowerChar)

/-- Flip the case of an ASCII letter byte, leave anything else unchanged.
Used to state the single-character case-flip property of the spec. -/
def flipByte (c : Nat) : Nat :=
  if 65 ≤ c ∧ c ≤ 90 then c + 32 else if 97 ≤ c ∧ c ≤ 122 then c - 32 else c

/-- Flip the case of the byte at index k, leaving the rest unchanged. -/
def flipAt : Nat → List Nat → List Nat
  | _, [] => []
  | 0, c :: r => flipByte c :: r
  | n + 1, c :: r => c :: flipAt n r

/-! ## SHA3-256 (hashlib.sha3_256), over lists of byte values

validate.py computes hashlib.sha3_256(address.encode()).hexdigest() and
consumes single hex digits of the digest. We implement the FIPS-202
SHA3-256 function (Keccak-f[1600], rate 1088, domain suffix 0x06) on
Nat lanes reduced mod 2^64, and expose the i-th hex digit of the
digest directly as a nibble (hexdigest()[i] is the high nibble of
digest byte i/2 for even i, the low nibble for odd i). -/

/-- Rotate a 64-bit lane left by n (0 ≤ n < 64). -/
def rotl64 (x n : Nat) : Nat :=
  (((x <<< n) % (2 ^ 64)) ||| (x >>> (64 - n)))

/-- Lane read with default 0 (state is a 25-element list). -/
def getLane (s : List Nat) (i : Nat) : Nat := s.getD i 0

/-- Keccak theta step. -/
def keccakTheta (A : List Nat) : List Nat :=
  let C := (List.range 5).map fun x =>
    getLane A x ^^^ getLane A (x + 5) ^^^ getLane A (x + 10) ^^^
      getLane A (x + 15) ^^^ getLane A (x + 20)
  let D := (List.range 5).map fun x =>
    (C.getD ((x + 4) % 5) 0) ^^^ rotl64 (C.getD ((x + 1) % 5) 0) 1
  (List.range 25).map fun i => getLane A i ^^^ D.getD (i % 5) 0

/-- Source lane index and rotation, indexed by destination lane, for the
combined rho and pi steps: destination x+5y receives the rotated lane at
position given by the inverse of (x,y) -> (y, 2x+3y mod 5). -/
def rhoPiTable : List (Nat × Nat) :=
  [(0, 0), (6, 44), (12, 43), (18, 21), (24, 14),
   (3, 28), (9, 20), (10, 3), (16, 45), (22, 61),
   (1, 1), (7, 6), (13, 25), (19, 8), (20, 18),
   (4, 27), (5, 36), (11, 10), (17, 15), (23, 56),
   (2, 62), (8, 55), (14, 39), (15, 41), (21, 2)]

/-- Keccak rho and pi steps combined. -/
def keccakRhoPi (A : List Nat) : List Nat :=
  rhoPiTable.map fun p => rotl64 (getLane A p.1) p.2

/-- Keccak chi step. -/
def keccakChi (B : List Nat) : List Nat :=
  (List.range 25).map fun i =>
    let x := i % 5
    let y := i - x
    getLane B i ^^^
      (((getLane B ((x + 1) % 5 + y)) ^^^ (2 ^ 64 - 1)) &&&
        getLane B ((x + 2) % 5 + y))

/-- Keccak round constants. -/
def keccakRC : List Nat :=
  [0x0000000000000001, 0x0000000000008082, 0x800000000000808a,
   0x8000000080008000, 0x000000000000808b, 0x0000000080000001,
   0x8000000080008081, 0x8000000000008009, 0x000000000000008a,
   0x0000000000000088, 0x0000000080008009, 0x000000008000000a,
   0x000000008000808b, 0x800000000000008b, 0x8000000000008089,
   0x8000000000008003, 0x8000000000008002, 0x8000000000000080,
   0x000000000000800a, 0x800000008000000a, 0x8000000080008081,
   0x8000000000008080, 0x0000000080000001, 0x8000000080008008]

/-- Keccak iota step for round r. -/
def keccakIota (A : List Nat) (r : Nat) : List Nat :=
  match A with
  | [] => []
  | a0 :: rest => (a0 ^^^ keccakRC.getD r 0) :: rest

/-- The Keccak-f[1600] permutation (24 rounds). -/
def keccakF (A : List Nat) : List Nat :=
  (List.range 24).foldl
    (fun s r => keccakIota (keccakChi (keccakRhoPi (keccakTheta s))) r) A

/-- Interpret up to 8 bytes as a little-endian 64-bit lane. -/
def bytesToLane (bs : List Nat) : Nat :=
  bs.foldr (fun b acc => b + (acc <<< 8)) 0

/-- XOR a rate-sized block (136 bytes) into the first 17 lanes. -/
def stateXorBlock (S block : List Nat) : List Nat :=
  (List.range 25).map fun j =>
    if j < 17 then getLane S j ^^^ bytesToLane ((block.drop (8 * j)).take 8)
    else getLane S j

/-- Absorb the padded message block by block (fuel bounds recursion). -/
def absorbBlocks (fuel : Nat) (S msg : List Nat) : List Nat :=
  match fuel with
  | 0 => S
  | fuel + 1 =>
    if msg = [] then S
    else absorbBlocks fuel (keccakF (stateXorBlock S (msg.take 136))) (msg.drop 136)

/-- SHA3-256 digest (32 bytes) of a byte list. -/
def sha3_256 (msg : List Nat) : List Nat :=
  let padLen := 136 - msg.length % 136
  let padded :=
    if padLen = 1 then msg ++ [0x86]
    else msg ++ 0x06 :: (List.replicate (padLen - 2) 0 ++ [0x80])
  let S := absorbBlocks (padded.length) (List.replicate 25 0) padded
  (List.range 32).map fun i => (getLane S (i / 8) >>> (8 * (i % 8))) % 256

/-- The value of hexdigest()[i] as a number: the i-th hex digit of the
SHA3-256 digest of msg. -/
def sha3Nibble (msg : List Nat) (i : Nat) : Nat :=
  let b := (sha3_256 msg).getD (i / 2) 0
  if i % 2 = 0 then b / 16 else b % 16

/-! ## backend/app/api/validate.py -/

/-- The checksum-building loop of to_checksum_address: digits are kept,
letters are uppercased when the hash digit at the same index is at least
8 and lowercased otherwise. The nib argument is the function giving the
i-th hex digit of the SHA3-256 digest of the lowercased address body. -/
def checksumChars (nib : Nat → Nat) : Nat → List Nat → List Nat
  | _, [] => []
  | i, c :: r =>
    (if isDigitByte c then c
     else if 8 ≤ nib i then toUpperByte c
     else toLowerByte c) :: checksumChars nib (i + 1) r

/-- to_checksum_address from validate.py. The address is a list of ASCII
byte values; 48 and 120 are the bytes of the 0x prefix. The source
strips the first two characters, lowercases, hashes the resulting text
with hashlib.sha3_256 and rebuilds the string with the checksum case. -/
def to_checksum_address (addr : List Nat) : List Nat :=
  let body := (addr.drop 2).map toLowerByte
  48 :: 120 :: checksumChars (sha3Nibble body) 0 body

/-- validate_checksum from validate.py: an all-lowercase or all-uppercase
address bypasses the check; otherwise the address must equal its own
checksummed form. (The try and except around the comparison can only
fire for address bodies longer than 64 characters, which cannot happen
for the 42-character inputs considered here.) -/
def validate_checksum (addr : List Nat) : Bool :=
  if addr = addr.map toLowerByte ∨ addr = addr.map toUpperByte then true
  else decide (addr = to_checksum_address addr)

/-! ## backend/app/chain/logs.py: data model and log parsing -/

/-- ApprovalType from logs.py (ERC721 is the single-token variant). -/
inductive ApprovalType where
  | ERC20
  | ERC721
  | ERC721_ALL
  | ERC1155_ALL
deriving DecidableEq

/-- ParsedApproval from logs.py. Field names and defaults follow the
dataclass; value and token_id are Optional ints there. -/
structure ParsedApproval where
  token_address : String
  owner : String
  spender : String
  approval_type : ApprovalType
  value : Option Nat := none
  token_id : Option Nat := none
  approved : Bool := true
  block_number : Nat := 0
  tx_hash : Option String := none
  log_index : Nat := 0
deriving DecidableEq

/-- MAX_UINT256 from contracts.py. -/
def MAX_UINT256 : Nat := 2 ^ 256 - 1

/-- The exact value of the Python expression MAX_UINT256 * 0.9, which is
evaluated in IEEE-754 binary64: float(2 to the 256 minus 1) rounds to
2 to the 256, the literal 0.9 rounds to 8106479329266893 divided by 2
to the 53, and their product 8106479329266893 times 2 to the 203 is
exactly representable, so no further rounding occurs. Python compares
an int against this float value exactly. -/
def UNLIMITED_FLOAT_THRESHOLD : Nat := 8106479329266893 * 2 ^ 203

/-- is_unlimited_allowance from contracts.py: value >= MAX_UINT256 * 0.9
with the right-hand side the float value above. -/
def is_unlimited_allowance (value : Nat) : Bool :=
  decide (UNLIMITED_FLOAT_THRESHOLD ≤ value)

/-- The is_unlimited property of ParsedApproval from logs.py. For ERC20
the comparison is the same float comparison as is_unlimited_allowance
(value is None gives false); for the two ALL kinds it is the approved
flag; for ERC721 single-token approvals it is false. -/
def ParsedApproval.is_unlimited (p : ParsedApproval) : Bool :=
  if p.approval_type == ApprovalType.ERC20 then
    match p.value with
    | some v => decide (UNLIMITED_FLOAT_THRESHOLD ≤ v)
    | none => false
  else if p.approval_type == ApprovalType.ERC721_ALL
      || p.approval_type == ApprovalType.ERC1155_ALL then
    p.approved
  else false

/-- A raw event log. The source reads these out of JSON dicts with
defaults for missing keys; the defaults here are those defaults. -/
structure RawLog where
  address : String := ""
  topics : List String := []
  data : String := "0x"
  blockNumber : String := "0x0"
  logIndex : String := "0x0"
  transactionHash : Option String := none
deriving DecidableEq

/-- Value of one hex digit character, either case (for int(s, 16)). -/
def hexDigitVal? (c : Char) : Option Nat :=
  if 48 ≤ c.toNat ∧ c.toNat ≤ 57 then some (c.toNat - 48)
  else if 97 ≤ c.toNat ∧ c.toNat ≤ 102 then some (c.toNat - 87)
  else if 65 ≤ c.toNat ∧ c.toNat ≤ 70 then some (c.toNat - 55)
  else none

/-- The Python call int(s, 16): an optional 0x or 0X prefix followed by
at least one hex digit; none models the ValueError raised otherwise.
(Pythons tolerance for whitespace, sign and underscores is not needed
for the hex-string inputs that occur in this code base.) -/
def hexToNat? (s : String) : Option Nat :=
  let t : List Char :=
    match s.data with
    | '0' :: 'x' :: rest => rest
    | '0' :: 'X' :: rest => rest
    | cs => cs
  if t.isEmpty then none
  else t.foldl
    (fun acc c =>
      match acc, hexDigitVal? c with
      | some a, some d => some (a * 16 + d)
      | _, _ => none)
    (some 0)

/-- unpad_address from logs.py: topics shorter than 42 characters give
the empty string, otherwise drop the first 26 characters, lowercase and
prepend 0x. -/
def unpad_address (padded : String) : String :=
  if padded.length < 42 then ""
  else "0x" ++ pyLower (String.mk (padded.data.drop 26))

/-- The parse of one Approval(address,address,uint256) log from logs.py.
Fewer than 3 topics gives None. With exactly 4 topics the record is an
ERC721 single-token approval with token_id from topic 3. Otherwise it
is an ERC20 record whose value is int(data, 16) when data is non-empty,
not 0x, and at least 66 characters, and 0 otherwise. A failing int
conversion raises inside the try and yields None. -/
def parse_approval_event (log : RawLog) : Option ParsedApproval :=
  if log.topics.length < 3 then none
  else
    match hexToNat? log.blockNumber, hexToNat? log.logIndex with
    | some block_number, some log_index =>
      if log.topics.length = 4 then
        match hexToNat? (log.topics.getD 3 "") with
        | some token_id =>
          some { token_address := pyLower log.address,
                 owner := unpad_address (log.topics.getD 1 ""),
                 spender := unpad_address (log.topics.getD 2 ""),
                 approval_type := ApprovalType.ERC721,
                 token_id := some token_id, block_number := block_number,
                 tx_hash := log.transactionHash, log_index := log_index }
        | none => none
      else
        match (if log.data ≠ "" ∧ log.data ≠ "0x" ∧ 66 ≤ log.data.length then
            hexToNat? log.data
          else some 0) with
        | some value =>
          some { token_address := pyLower log.address,
                 owner := unpad_address (log.topics.getD 1 ""),
                 spender := unpad_address (log.topics.getD 2 ""),
                 approval_type := ApprovalType.ERC20,
                 value := some value, block_number := block_number,
                 tx_hash := log.transactionHash, log_index := log_index }
        | none => none
    | _, _ => none

/-- The parse of one ApprovalForAll(address,address,bool) log from
logs.py. The approved flag is int(data, 16) == 1 when data is non-empty
and not 0x, and defaults to True otherwise. The approval_type is always
ERC721_ALL (the source notes it could also be an ERC1155 contract). -/
def parse_approval_for_all_event (log : RawLog) : Option ParsedApproval :=
  if log.topics.length < 3 then none
  else
    match hexToNat? log.blockNumber, hexToNat? log.logIndex with
    | some block_number, some log_index =>
      match (if log.data ≠ "" ∧ log.data ≠ "0x" then
          (hexToNat? log.data).map (fun v => v == 1)
        else some true) with
      | some approved =>
        some { token_address := pyLower log.address,
               owner := unpad_address (log.topics.getD 1 ""),
               spender := unpad_address (log.topics.getD 2 ""),
               approval_type := ApprovalType.ERC721_ALL,
               approved := approved, block_number := block_number,
               tx_hash := log.transactionHash, log_index := log_index }
      | none => none
    | _, _ => none

/-- The two log lists handed to parse_approval_logs (the dict built by
get_approval_logs, with keys approvals and approval_for_all). -/
structure ApprovalLogsResult where
  approvals : List RawLog
  approval_for_all : List RawLog
deriving DecidableEq

/-- parse_approval_logs from logs.py: parse each list, keeping the
successful parses in order, Approval events first. -/
def parse_approval_logs (logs : ApprovalLogsResult) : List ParsedApproval :=
  logs.approvals.filterMap parse_approval_event ++
    logs.approval_for_all.filterMap parse_approval_for_all_event

/-! ## backend/app/chain/logs.py: state reconstruction -/

/-- The comparison underlying sorted(key=(block_number, log_index)):
lexicographic less-or-equal on the sort key. -/
def approvalLe (a b : ParsedApproval) : Bool :=
  decide (a.block_number < b.block_number) ||
    (decide (a.block_number = b.block_number) &&
      decide (a.log_index ≤ b.log_index))

/-- Stable insertion of a record into an already sorted list: the new
record goes after every existing record whose key is less or equal. -/
def insertSorted (a : ParsedApproval) : List ParsedApproval → List ParsedApproval
  | [] => [a]
  | b :: r => if approvalLe b a then b :: insertSorted a r else a :: b :: r

/-- The stable sort by (block_number, log_index) performed by sorted in
reconstruct_current_state. Inserting the records left to right with
insertSorted is a stable sort by this key, so it computes the same list
as the stable Python sorted. -/
def sortApprovals (l : List ParsedApproval) : List ParsedApproval :=
  l.foldl (fun acc a => insertSorted a acc) []

/-- The revocation test applied by the reconstruction loop: an ERC20
record with value 0, or an ALL record with approved False. -/
def isRevoked (a : ParsedApproval) : Bool :=
  (a.approval_type == ApprovalType.ERC20 && a.value == some 0) ||
    ((a.approval_type == ApprovalType.ERC721_ALL ||
        a.approval_type == ApprovalType.ERC1155_ALL) && !a.approved)

/-- The reconstructed state: an insertion-ordered map from token address
to an insertion-ordered map from spender to the latest record, matching
the Python dict of dicts. -/
abbrev StateMap : Type := List (String × List (String × ParsedApproval))

/-- First-match lookup in an insertion-ordered association list. -/
def lookupStr {α : Type} : List (String × α) → String → Option α
  | [], _ => none
  | (k, v) :: r, s => if k = s then some v else lookupStr r s

/-- Assignment in an inner dict: replace in place, or append. -/
def setInner : List (String × ParsedApproval) → String → ParsedApproval →
    List (String × ParsedApproval)
  | [], s, a => [(s, a)]
  | (k, v) :: r, s, a => if k = s then (s, a) :: r else (k, v) :: setInner r s a

/-- dict.pop(spender, None) on an inner dict: drop the key. -/
def popInner (inner : List (String × ParsedApproval)) (s : String) :
    List (String × ParsedApproval) :=
  inner.filter (fun p => !(p.1 == s))

/-- Whether the outer dict has an entry for this token. -/
def hasTok (st : StateMap) (t : String) : Bool := (lookupStr st t).isSome

/-- Apply a function to the inner dict of a token. -/
def mapTok (st : StateMap) (t : String)
    (f : List (String × ParsedApproval) → List (String × ParsedApproval)) :
    StateMap :=
  st.map (fun p => if p.1 = t then (p.1, f p.2) else p)

/-- One iteration of the reconstruction loop: ensure the token entry
exists, then pop the spender on a revocation and assign it otherwise. -/
def stepState (st : StateMap) (a : ParsedApproval) : StateMap :=
  let st1 := if hasTok st a.token_address then st
    else st ++ [(a.token_address, [])]
  mapTok st1 a.token_address (fun inner =>
    if isRevoked a then popInner inner a.spender else setInner inner a.spender a)

/-- reconstruct_current_state from logs.py: stable sort by
(block_number, log_index), then fold the loop over an empty state. -/
def reconstruct_current_state (approvals : List ParsedApproval) : StateMap :=
  (sortApprovals approvals).foldl stepState []

/-- state[token][spender] if present. -/
def lookupState (st : StateMap) (t s : String) : Option ParsedApproval :=
  (lookupStr st t).bind (fun inner => lookupStr inner s)

/-- The last record of the list for the given token and spender, if any:
the record whose effect survives a left-to-right replay. -/
def lastMatchOn (t s : String) : List ParsedApproval → Option ParsedApproval
  | [] => none
  | a :: rest =>
    match lastMatchOn t s rest with
    | some m => some m
    | none => if a.token_address = t ∧ a.spender = s then some a else none

/-- Strict lexicographic order on the (block_number, log_index) key,
used to state which of two events is later. -/
abbrev lexEarlier (a b : ParsedApproval) : Prop :=
  a.block_number < b.block_number ∨
    (a.block_number = b.block_number ∧ a.log_index < b.log_index)

/-! ## backend/app/services/approval_scanner.py: data model -/

/-- TokenInfo from approval_scanner.py. -/
structure TokenInfo where
  address : String
  symbol : Option String := none
  name : Option String := none
  decimals : Nat := 18
  token_type : String := "ERC20"
deriving DecidableEq

/-- SpenderInfo from approval_scanner.py. -/
structure SpenderInfo where
  address : String
  is_contract : Bool := false
  name : Option String := none
  verified : Bool := false
deriving DecidableEq

/-- ActiveApproval from approval_scanner.py. age_days and timestamp are
Int because the Python subtractions can go negative. The display-only
allowance_formatted string (float formatting) is omitted; no property
in this development depends on it. -/
structure ActiveApproval where
  token : TokenInfo
  spender : SpenderInfo
  approval_type : ApprovalType
  allowance_raw : Option Nat := none
  is_unlimited : Bool := false
  block_number : Nat := 0
  timestamp : Int := 0
  age_days : Int := 0
  tx_hash : Option String := none
deriving DecidableEq

/-! ## backend/app/services/risk_engine.py -/

/-- RiskCategory from risk_engine.py. -/
inductive RiskCategory where
  | SAFE
  | RISKY
  | DANGEROUS
deriving DecidableEq

/-- RiskFactor from risk_engine.py. -/
structure RiskFactor where
  name : String
  weight : Nat
  reason : String
  applies : Bool := false
deriving DecidableEq

/-- RiskAssessment from risk_engine.py. -/
structure RiskAssessment where
  score : Nat
  category : RiskCategory
  factors : List RiskFactor
  reasons : List String
deriving DecidableEq

/-- calculate_risk from risk_engine.py. The four if blocks append their
factor when the condition holds (weights from the WEIGHTS table: 40,
25, 35, 20, 25, 15); the running total equals the sum of the appended
weights; the score is capped at 100 and the category thresholds are
SAFE_THRESHOLD = 30 and RISKY_THRESHOLD = 60. -/
def calculate_risk (approval : ActiveApproval) : RiskAssessment :=
  let fs1 : List RiskFactor :=
    if approval.is_unlimited then
      if approval.approval_type == ApprovalType.ERC20 then
        [{ name := "unlimited_allowance", weight := 40,
           reason := "Unlimited token approval allows spender to transfer any amount",
           applies := true }]
      else
        [{ name := "approval_for_all", weight := 25,
           reason := "Blanket NFT approval allows spender to transfer all tokens in collection",
           applies := true }]
    else []
  let fs2 : List RiskFactor :=
    if !approval.spender.is_contract then
      [{ name := "eoa_spender", weight := 35,
         reason := "Spender is an externally owned account (EOA), not a contract",
         applies := true }]
    else []
  let fs3 : List RiskFactor :=
    if !approval.spender.verified && approval.spender.is_contract then
      [{ name := "unknown_spender", weight := 20,
         reason := "Spender contract is not verified on block explorer",
         applies := true }]
    else []
  let fs4 : List RiskFactor :=
    if approval.age_days > 365 then
      [{ name := "very_old_approval", weight := 25,
         reason := "Approval is over " ++ toString (approval.age_days.fdiv 365) ++ " year(s) old",
         applies := true }]
    else if approval.age_days > 180 then
      [{ name := "old_approval_6m", weight := 15,
         reason := "Approval is " ++ toString approval.age_days ++ " days old (6+ months)",
         applies := true }]
    else []
  let factors := fs1 ++ fs2 ++ fs3 ++ fs4
  let total_score : Nat := (factors.map (fun f => f.weight)).sum
  let score : Nat := min total_score 100
  let category :=
    if score ≤ 30 then RiskCategory.SAFE
    else if score ≤ 60 then RiskCategory.RISKY
    else RiskCategory.DANGEROUS
  { score := score, category := category, factors := factors,
    reasons := (factors.filter (fun f => f.applies)).map (fun f => f.reason) }

/-! ## backend/app/services/spender_analyzer.py -/

/-- SpenderAnalysis from spender_analyzer.py. -/
structure SpenderAnalysis where
  address : String
  is_contract : Bool
  contract_name : Option String := none
  verified : Bool := false
  creation_date : Option String := none
  source_code_available : Bool := false
deriving DecidableEq

/-- KNOWN_SPENDERS from spender_analyzer.py: the static allowlist of
well-known protocol addresses. -/
def KNOWN_SPENDERS : List (String × String) :=
  [("0x68b3465833fb72a70ecdf485e0e4c7bd8665fc45", "Uniswap: Universal Router"),
   ("0xef1c6e67703c7bd7107eed8303fbe6ec2554bf6b", "Uniswap: Universal Router 2"),
   ("0x3fc91a3afd70395cd496c647d5a6cc9d4b2b7fad", "Uniswap: Universal Router 3"),
   ("0x7a250d5630b4cf539739df2c5dacb4c659f2488d", "Uniswap V2: Router 2"),
   ("0xe592427a0aece92de3edee1f18e0157c05861564", "Uniswap V3: Router"),
   ("0x1e0049783f008a0085193e00003d00cd54003c71", "OpenSea: Seaport 1.4"),
   ("0x00000000000001ad428e4906ae43d8f9852d0dd6", "OpenSea: Seaport 1.5"),
   ("0x00000000000000adc04c56bf30ac9d3c0aaf14dc", "OpenSea: Seaport 1.6"),
   ("0x000000000000ad05ccc4f10045630fb830b95127", "Blur: Marketplace"),
   ("0x29469395eaf6f95920e59f858042f0e28d98a20b", "Blur: Blend"),
   ("0x1111111254eeb25477b68fb85ed929f73a960582", "1inch: Aggregation Router V5"),
   ("0x111111125421ca6dc452d289314280a0f8842a65", "1inch: Aggregation Router V6"),
   ("0x7fc66500c84a76ad7e9c93437bfc5ac33e2ddae9", "Aave: AAVE Token"),
   ("0x87870bca3f3fd6335c3f4ce8392d69350b4fa4e2", "Aave: Pool V3"),
   ("0xc00e94cb662c3520282e6f5717214004a7f26888", "Compound: COMP Token"),
   ("0x000000000022d473030f116ddee9f6b43ac78ba3", "Uniswap: Permit2")]

/-- SpenderAnalyzer.analyze, for a fresh analyzer (empty per-instance
cache; the cache only memoizes this same computation). A known spender
yields a verified analysis carrying the allowlist name; any other
address yields the basic unverified analysis with is_contract True. -/
def analyze (address : String) : SpenderAnalysis :=
  let a := pyLower address
  match lookupStr KNOWN_SPENDERS a with
  | some nm =>
    { address := a, is_contract := true, contract_name := some nm,
      verified := true, source_code_available := true }
  | none =>
    { address := a, is_contract := true, contract_name := none,
      verified := false, source_code_available := false }

/-! ## backend/app/chain/rpc.py and approval_scanner.py

Each JSON-RPC call site is represented by a field of RpcOracle giving
the outcome of that call: ok with the decoded JSON result (None for a
null result), or error for a transport or protocol failure, which the
source raises as an exception. Functions that can raise return Except;
try and except blocks become matches on the Except value. The token
metadata triad of get_token_info is internally fault-tolerant in the
source (every failure silently keeps a default), so it is represented
by the already-defaulted fields symbolOf, nameOf and decimalsOf, and
get_block_timestamp by the decoded timestamp it returns. The per-scan
caches only memoize calls of the same pure oracle functions, so they
are observationally the identity and are not modelled. -/
structure RpcOracle where
  blockNumberForLogs : Except Unit String
  blockNumberForScan : Except Unit String
  approvalLogsAt : String → String → Except Unit (Option (List RawLog))
  approvalForAllLogsAt : String → String → Except Unit (Option (List RawLog))
  allowanceOf : String → String → String → Except Unit (Option String)
  approvedForAllOf : String → String → String → Except Unit (Option String)
  codeOf : String → Except Unit (Option String)
  timestampOf : Nat → Except Unit Nat
  symbolOf : String → Option String
  nameOf : String → Option String
  decimalsOf : String → Nat

/-- Python hex(n) for a natural number: 0x followed by lowercase hex. -/
def natToHex (n : Nat) : String := "0x" ++ (Nat.toDigits 16 n).asString

/-- pad_address from rpc.py: strip 0x, lowercase, zfill to 64. -/
def pad_address (address : String) : String :=
  let s := pyLower (String.mk (address.data.drop 2))
  "0x" ++ String.mk (List.replicate (64 - s.length) '0') ++ s

/-- get_approval_logs from rpc.py. The block-number probe computes the
window start max(0, head - 5000000) (Nat subtraction is that max) and
falls back to 0x0 on any failure; each of the two log queries is
guarded by its own try and falls back to an empty list, and a null
result also becomes an empty list (the or [] in the source); so this
function never raises. -/
def get_approval_logs (o : RpcOracle) (address : String) : ApprovalLogsResult :=
  let padded := pad_address address
  let fromBlock :=
    match o.blockNumberForLogs with
    | Except.ok r =>
      match hexToNat? r with
      | some n => natToHex (n - 5000000)
      | none => "0x0"
    | Except.error _ => "0x0"
  let approvals :=
    match o.approvalLogsAt padded fromBlock with
    | Except.ok r => r.getD []
    | Except.error _ => []
  let forAll :=
    match o.approvalForAllLogsAt padded fromBlock with
    | Except.ok r => r.getD []
    | Except.error _ => []
  { approvals := approvals, approval_for_all := forAll }

/-- get_allowance from rpc.py: raises on call failure or on a malformed
hex result; a null or empty or 0x result returns 0. -/
def get_allowance (o : RpcOracle) (token owner spender : String) :
    Except Unit Nat :=
  match o.allowanceOf token owner spender with
  | Except.error e => Except.error e
  | Except.ok r =>
    match r with
    | some s =>
      if s ≠ "" ∧ s ≠ "0x" then
        match hexToNat? s with
        | some v => Except.ok v
        | none => Except.error ()
      else Except.ok 0
    | none => Except.ok 0

/-- is_approved_for_all from rpc.py: the whole body is inside a try, so
every failure path returns False; a truthy result must decode to 1. -/
def is_approved_for_all (o : RpcOracle) (token owner operator : String) : Bool :=
  match o.approvedForAllOf token owner operator with
  | Except.error _ => false
  | Except.ok r =>
    match r with
    | some s =>
      if s ≠ "" then
        match hexToNat? s with
        | some v => v == 1
        | none => false
      else false
    | none => false

/-- get_code from rpc.py: result or 0x (a null or empty result becomes
0x); a call failure raises. -/
def get_code (o : RpcOracle) (address : String) : Except Unit String :=
  match o.codeOf address with
  | Except.error e => Except.error e
  | Except.ok r =>
    match r with
    | some s => Except.ok (if s = "" then "0x" else s)
    | none => Except.ok "0x"

/-- is_contract from rpc.py. -/
def is_contract (o : RpcOracle) (address : String) : Except Unit Bool :=
  match get_code o address with
  | Except.error e => Except.error e
  | Except.ok code => Except.ok (decide (code ≠ "0x" ∧ 2 < code.length))

/-- The private spender-info step of the scanner: one get_code probe and
a record with verified False and no name (the source notes that a block
explorer lookup would be needed and does not consult the allowlist). -/
def get_spender_info (o : RpcOracle) (address : String) :
    Except Unit SpenderInfo :=
  match is_contract o address with
  | Except.error e => Except.error e
  | Except.ok ic =>
    Except.ok { address := address, is_contract := ic, name := none,
                verified := false }

/-- The token-type classification inside the private token-info step of
the scanner. -/
def tokenTypeFor (t : ApprovalType) : String :=
  match t with
  | ApprovalType.ERC721 => "ERC721"
  | ApprovalType.ERC721_ALL => "ERC721"
  | ApprovalType.ERC1155_ALL => "ERC1155"
  | ApprovalType.ERC20 => "ERC20"

/-- The private token-info step of the scanner: metadata from the RPC
triad plus the token type derived from the approval kind. -/
def get_token_info (o : RpcOracle) (address : String) (ty : ApprovalType) :
    TokenInfo :=
  { address := address, symbol := o.symbolOf address, name := o.nameOf address,
    decimals := o.decimalsOf address, token_type := tokenTypeFor ty }

/-- The private verify-and-enrich step of the scanner. ERC20 entries are
dropped when the live allowance is 0; ALL entries are dropped when the
live isApprovedForAll is false, and are always unlimited; ERC721
single-token entries are dropped unconditionally. The age computation
uses the block timestamp when available and otherwise estimates from
the block distance at 12 seconds per block; both divisions are the
Python floor division. -/
def verify_and_enrich (o : RpcOracle) (parsed : ParsedApproval)
    (owner : String) (current_block : Nat) (current_time : Int) :
    Except Unit (Option ActiveApproval) :=
  let token_address := parsed.token_address
  let spender_address := parsed.spender
  let checked : Except Unit (Option (Option Nat × Bool)) :=
    if parsed.approval_type == ApprovalType.ERC20 then
      match get_allowance o token_address owner spender_address with
      | Except.error e => Except.error e
      | Except.ok current_allowance =>
        if current_allowance = 0 then Except.ok none
        else Except.ok (some (some current_allowance,
          is_unlimited_allowance current_allowance))
    else if parsed.approval_type == ApprovalType.ERC721_ALL
        || parsed.approval_type == ApprovalType.ERC1155_ALL then
      if is_approved_for_all o token_address owner spender_address then
        Except.ok (some (none, true))
      else Except.ok none
    else Except.ok none
  match checked with
  | Except.error e => Except.error e
  | Except.ok none => Except.ok none
  | Except.ok (some (current_allowance, is_unlimited)) =>
    let token_info := get_token_info o token_address parsed.approval_type
    match get_spender_info o spender_address with
    | Except.error e => Except.error e
    | Except.ok spender_info =>
      let ts_age : Int × Int :=
        if 0 < parsed.block_number then
          match o.timestampOf parsed.block_number with
          | Except.ok ts => ((ts : Int), (current_time - (ts : Int)).fdiv 86400)
          | Except.error _ =>
            (0, (((current_block : Int) - (parsed.block_number : Int)) * 12).fdiv 86400)
        else (0, 0)
      Except.ok (some
        { token := token_info, spender := spender_info,
          approval_type := parsed.approval_type,
          allowance_raw := current_allowance, is_unlimited := is_unlimited,
          block_number := parsed.block_number, timestamp := ts_age.1,
          age_days := ts_age.2, tx_hash := parsed.tx_hash })

/-- The comparison underlying the final sort of scan:
key (not is_unlimited, -age_days) ascending. -/
def activeLe (a b : ActiveApproval) : Bool :=
  let pa : Nat := if a.is_unlimited then 0 else 1
  let pb : Nat := if b.is_unlimited then 0 else 1
  decide (pa < pb) || (decide (pa = pb) && decide (-a.age_days ≤ -b.age_days))

/-- Stable insertion for the final sort of scan. -/
def insertActive (a : ActiveApproval) : List ActiveApproval → List ActiveApproval
  | [] => [a]
  | b :: r => if activeLe b a then b :: insertActive a r else a :: b :: r

/-- The stable sort of scan (unlimited first, then oldest first). -/
def sortActive (l : List ActiveApproval) : List ActiveApproval :=
  l.foldl (fun acc a => insertActive a acc) []

/-- scan from approval_scanner.py. The initial log fetch is guarded by
a try returning [] on failure, but get_approval_logs catches all its
own failures, so that branch is dead; the block-number probe falls back
to 0; each entry of the reconstructed state is verified inside a try
whose except swallows the failure and continues. The current time is a
parameter (time.time() in the source). -/
def scan (o : RpcOracle) (address : String) (current_time : Int) :
    Except Unit (List ActiveApproval) :=
  let address := pyLower address
  let raw_logs := get_approval_logs o address
  let parsed_approvals := parse_approval_logs raw_logs
  let current_state := reconstruct_current_state parsed_approvals
  let current_block :=
    match o.blockNumberForScan with
    | Except.ok r =>
      match hexToNat? r with
      | some v => v
      | none => 0
    | Except.error _ => 0
  let active_approvals := current_state.foldl
    (fun acc tokEntry => tokEntry.2.foldl
      (fun acc spEntry =>
        match verify_and_enrich o spEntry.2 address current_block current_time with
        | Except.ok (some a) => acc ++ [a]
        | Except.ok none => acc
        | Except.error _ => acc)
      acc)
    []
  Except.ok (sortActive active_approvals)

/-! ## Lemmas about the reconstruction state map -/

theorem lookupStr_nil {α : Type} (s : String) :
    lookupStr ([] : List (String × α)) s = none := rfl

theorem lookupStr_cons {α : Type} (k : String) (v : α)
    (r : List (String × α)) (s : String) :
    lookupStr ((k, v) :: r) s = if k = s then some v else lookupStr r s := rfl

theorem lookupStr_mapTok (st : StateMap) (t0 t : String)
    (f : List (String × ParsedApproval) → List (String × ParsedApproval)) :
    lookupStr (mapTok st t0 f) t =
      if t0 = t then (lookupStr st t).map f else lookupStr st t := by
  induction st with
  | nil =>
    simp only [mapTok, List.map_nil, lookupStr]
    split <;> rfl
  | cons p r ih =>
    obtain ⟨k, v⟩ := p
    have hunf : mapTok ((k, v) :: r) t0 f =
        (if k = t0 then (k, f v) else (k, v)) :: mapTok r t0 f := rfl
    rw [hunf]
    by_cases hk0 : k = t0
    · subst hk0
      rw [if_pos rfl, lookupStr_cons, lookupStr_cons]
      by_cases hkt : k = t
      · subst hkt
        rw [if_pos rfl, if_pos rfl, if_pos rfl]
        rfl
      · rw [if_neg hkt, if_neg hkt, if_neg hkt, ih, if_neg hkt]
    · rw [if_neg hk0, lookupStr_cons, lookupStr_cons]
      by_cases hkt : k = t
      · subst hkt
        have ht0t : ¬ t0 = k := fun h => hk0 h.symm
        rw [if_pos rfl, if_pos rfl, if_neg ht0t]
      · rw [if_neg hkt, if_neg hkt, ih]

theorem lookupStr_append_new (st : StateMap) (t0 t : String)
    (x : List (String × ParsedApproval)) :
    lookupStr (st ++ [(t0, x)]) t =
      match lookupStr st t with
      | some v => some v
      | none => if t0 = t then some x else none := by
  induction st with
  | nil => simp only [List.nil_append, lookupStr]
  | cons p r ih =>
    obtain ⟨k, v⟩ := p
    rw [List.cons_append, lookupStr_cons, lookupStr_cons]
    by_cases hkt : k = t
    · rw [if_pos hkt, if_pos hkt]
    · rw [if_neg hkt, if_neg hkt, ih]

theorem lookupStr_setInner (inner : List (String × ParsedApproval))
    (s s' : String) (a : ParsedApproval) :
    lookupStr (setInner inner s a) s' =
      if s = s' then some a else lookupStr inner s' := by
  induction inner with
  | nil => simp only [setInner, lookupStr]
  | cons p r ih =>
    obtain ⟨k, v⟩ := p
    have hunf : setInner ((k, v) :: r) s a =
        if k = s then (s, a) :: r else (k, v) :: setInner r s a := rfl
    rw [hunf]
    by_cases hks : k = s
    · subst hks
      rw [if_pos rfl, lookupStr_cons, lookupStr_cons]
      by_cases hks' : k = s'
      · subst hks'
        rw [if_pos rfl, if_pos rfl]
      · rw [if_neg hks', if_neg hks', if_neg hks']
    · rw [if_neg hks, lookupStr_cons, lookupStr_cons]
      by_cases hks' : k = s'
      · subst hks'
        have hss' : ¬ s = k := fun h => hks h.symm
        rw [if_pos rfl, if_pos rfl, if_neg hss']
      · rw [if_neg hks', if_neg hks', ih]

theorem lookupStr_popInner (inner : List (String × ParsedApproval))
    (s s' : String) :
    lookupStr (popInner inner s) s' =
      if s = s' then none else lookupStr inner s' := by
  induction inner with
  | nil => simp [popInner, lookupStr]
  | cons p r ih =>
    obtain ⟨k, v⟩ := p
    have hunf : popInner ((k, v) :: r) s =
        if (!(k == s)) = true then (k, v) :: popInner r s else popInner r s := by
      simp only [popInner, List.filter_cons]
    rw [hunf]
    by_cases hks : k = s
    · subst hks
      have hb : ¬ ((!(k == k)) = true) := by simp
      rw [if_neg hb, ih, lookupStr_cons]
      by_cases hks' : k = s'
      · subst hks'
        rw [if_pos rfl, if_pos rfl]
      · rw [if_neg hks', if_neg hks', if_neg hks']
    · have hb : (!(k == s)) = true := by simp [hks]
      rw [if_pos hb, lookupStr_cons, lookupStr_cons]
      by_cases hks' : k = s'
      · subst hks'
        have hss' : ¬ s = k := fun h => hks h.symm
        rw [if_pos rfl, if_pos rfl, if_neg hss']
      · rw [if_neg hks', if_neg hks', ih]

theorem lookupState_step (st : StateMap) (a : ParsedApproval) (t s : String) :
    lookupState (stepState st a) t s =
      if a.token_address = t ∧ a.spender = s then
        (if isRevoked a then none else some a)
      else lookupState st t s := by
  by_cases ht : a.token_address = t
  · subst ht
    cases hlk : lookupStr st a.token_address <;>
      by_cases hrev : isRevoked a = true <;>
        by_cases hs : a.spender = s <;>
          simp [stepState, lookupState, hasTok, lookupStr_mapTok,
            lookupStr_append_new, lookupStr_setInner, lookupStr_popInner,
            lookupStr_nil, hlk, hrev, hs]
  · by_cases hrev : isRevoked a = true <;>
      by_cases hs : a.spender = s <;>
        cases hlk : lookupStr st a.token_address <;>
          cases hlk2 : lookupStr st t <;>
            simp [stepState, lookupState, hasTok, lookupStr_mapTok,
              lookupStr_append_new, lookupStr_setInner, lookupStr_popInner,
              hlk, hlk2, ht, hrev, hs]

theorem lookupState_foldl (l : List ParsedApproval) (st : StateMap)
    (t s : String) :
    lookupState (l.foldl stepState st) t s =
      match lastMatchOn t s l with
      | some m => if isRevoked m then none else some m
      | none => lookupState st t s := by
  induction l generalizing st with
  | nil => rfl
  | cons a rest ih =>
    rw [List.foldl_cons, ih]
    show _ = match (match lastMatchOn t s rest with
      | some m => some m
      | none => if a.token_address = t ∧ a.spender = s then some a else none) with
      | some m => if isRevoked m then none else some m
      | none => lookupState st t s
    cases hrest : lastMatchOn t s rest with
    | some m => rfl
    | none =>
      simp only
      rw [lookupState_step]
      by_cases hc : a.token_address = t ∧ a.spender = s
      · rw [if_pos hc, if_pos hc]
      · rw [if_neg hc, if_neg hc]

theorem lastMatchOn_mem (t s : String) (l : List ParsedApproval)
    (m : ParsedApproval) (h : lastMatchOn t s l = some m) :
    m ∈ l ∧ m.token_address = t ∧ m.spender = s := by
  induction l with
  | nil => exact absurd h (by simp [lastMatchOn])
  | cons a rest ih =>
    rw [show lastMatchOn t s (a :: rest) = match lastMatchOn t s rest with
      | some m => some m
      | none => if a.token_address = t ∧ a.spender = s then some a else none
      from rfl] at h
    cases hrest : lastMatchOn t s rest with
    | some m' =>
      rw [hrest] at h
      simp only [Option.some.injEq] at h
      subst h
      obtain ⟨hm, hk⟩ := ih hrest
      exact ⟨List.mem_cons_of_mem a hm, hk⟩
    | none =>
      rw [hrest] at h
      by_cases hc : a.token_address = t ∧ a.spender = s
      · rw [if_pos hc] at h
        simp only [Option.some.injEq] at h
        subst h
        exact ⟨List.mem_cons_self a rest, hc⟩
      · rw [if_neg hc] at h
        exact absurd h (by simp)

theorem lastMatchOn_isSome (t s : String) (l : List ParsedApproval)
    (e : ParsedApproval) (he : e ∈ l) (ht : e.token_address = t)
    (hs : e.spender = s) : (lastMatchOn t s l).isSome := by
  induction l with
  | nil => exact absurd he (List.not_mem_nil e)
  | cons a rest ih =>
    rw [show lastMatchOn t s (a :: rest) = match lastMatchOn t s rest with
      | some m => some m
      | none => if a.token_address = t ∧ a.spender = s then some a else none
      from rfl]
    cases hrest : lastMatchOn t s rest with
    | some m' => rfl
    | none =>
      rcases List.mem_cons.mp he with hea | herest
      · subst hea
        rw [if_pos ⟨ht, hs⟩]
        rfl
      · have := ih herest
        rw [hrest] at this
        simp at this

theorem approvalLe_refl (a : ParsedApproval) : approvalLe a a = true := by
  simp [approvalLe]

theorem approvalLe_total (a b : ParsedApproval) :
    approvalLe a b = true ∨ approvalLe b a = true := by
  simp only [approvalLe, Bool.or_eq_true, Bool.and_eq_true, decide_eq_true_eq]
  omega

theorem approvalLe_trans (a b c : ParsedApproval)
    (hab : approvalLe a b = true) (hbc : approvalLe b c = true) :
    approvalLe a c = true := by
  simp only [approvalLe, Bool.or_eq_true, Bool.and_eq_true,
    decide_eq_true_eq] at hab hbc ⊢
  omega

theorem mem_insertSorted (a x : ParsedApproval) (l : List ParsedApproval) :
    x ∈ insertSorted a l ↔ x = a ∨ x ∈ l := by
  induction l with
  | nil => simp [insertSorted]
  | cons b r ih =>
    by_cases h : approvalLe b a = true
    · simp only [insertSorted, if_pos h, List.mem_cons, ih]
      tauto
    · simp only [insertSorted, if_neg h, List.mem_cons]

theorem mem_sortApprovals (x : ParsedApproval) (l : List ParsedApproval) :
    x ∈ sortApprovals l ↔ x ∈ l := by
  have main : ∀ (l acc : List ParsedApproval),
      x ∈ l.foldl (fun acc a => insertSorted a acc) acc ↔ x ∈ acc ∨ x ∈ l := by
    intro l
    induction l with
    | nil => simp
    | cons a r ih =>
      intro acc
      rw [List.foldl_cons, ih, mem_insertSorted]
      simp only [List.mem_cons]
      tauto
  rw [sortApprovals, main]
  simp

theorem pairwise_insertSorted (a : ParsedApproval) (l : List ParsedApproval)
    (h : l.Pairwise (fun u v => approvalLe u v = true)) :
    (insertSorted a l).Pairwise (fun u v => approvalLe u v = true) := by
  induction l with
  | nil => simp [insertSorted]
  | cons b r ih =>
    rcases List.pairwise_cons.mp h with ⟨hb, hr⟩
    by_cases hba : approvalLe b a = true
    · rw [insertSorted, if_pos hba]
      refine List.pairwise_cons.mpr ⟨?_, ih hr⟩
      intro x hx
      rcases (mem_insertSorted a x r).mp hx with hxa | hxr
      · subst hxa
        exact hba
      · exact hb x hxr
    · rw [insertSorted, if_neg hba]
      have hab : approvalLe a b = true := by
        rcases approvalLe_total a b with h1 | h1
        · exact h1
        · exact absurd h1 hba
      refine List.pairwise_cons.mpr ⟨?_, h⟩
      intro x hx
      rcases List.mem_cons.mp hx with hxb | hxr
      · subst hxb
        exact hab
      · exact approvalLe_trans a b x hab (hb x hxr)

theorem pairwise_sortApprovals (l : List ParsedApproval) :
    (sortApprovals l).Pairwise (fun u v => approvalLe u v = true) := by
  have main : ∀ (l acc : List ParsedApproval),
      acc.Pairwise (fun u v => approvalLe u v = true) →
      (l.foldl (fun acc a => insertSorted a acc) acc).Pairwise
        (fun u v => approvalLe u v = true) := by
    intro l
    induction l with
    | nil => intro acc h; exact h
    | cons a r ih =>
      intro acc h
      exact ih (insertSorted a acc) (pairwise_insertSorted a acc h)
  exact main l [] (List.Pairwise.nil)

theorem lastMatchOn_ge (t s : String) (l : List ParsedApproval)
    (hsorted : l.Pairwise (fun u v => approvalLe u v = true))
    (e : ParsedApproval) (he : e ∈ l) (ht : e.token_address = t)
    (hs : e.spender = s) (m : ParsedApproval)
    (hm : lastMatchOn t s l = some m) : approvalLe e m = true := by
  induction l with
  | nil => exact absurd he (List.not_mem_nil e)
  | cons a rest ih =>
    rcases List.pairwise_cons.mp hsorted with ⟨ha, hrest⟩
    rw [show lastMatchOn t s (a :: rest) = match lastMatchOn t s rest with
      | some m => some m
      | none => if a.token_address = t ∧ a.spender = s then some a else none
      from rfl] at hm
    cases hrestm : lastMatchOn t s rest with
    | some m' =>
      rw [hrestm] at hm
      simp only [Option.some.injEq] at hm
      subst hm
      rcases List.mem_cons.mp he with hea | herest
      · subst hea
        exact ha m' (lastMatchOn_mem t s rest m' hrestm).1
      · exact ih hrest herest hrestm
    | none =>
      rw [hrestm] at hm
      rcases List.mem_cons.mp he with hea | herest
      · subst hea
        rw [if_pos ⟨ht, hs⟩] at hm
        simp only [Option.some.injEq] at hm
        subst hm
        exact approvalLe_refl e
      · have := lastMatchOn_isSome t s rest e herest ht hs
        rw [hrestm] at this
        simp at this

/-- The core latest-write-wins property of reconstruct_current_state,
for the key actually used by the source, (token_address, spender): if
every event of the input on that key other than e is strictly earlier
than e in the (block_number, log_index) order, then the reconstructed
entry at that key is exactly the effect of e: absent for a revocation
and e itself otherwise. -/
theorem reconstruct_lookup_latest (l : List ParsedApproval)
    (e : ParsedApproval) (t s : String) (he : e ∈ l)
    (ht : e.token_address = t) (hs : e.spender = s)
    (hlatest : ∀ e' ∈ l, e'.token_address = t → e'.spender = s →
      e' = e ∨ lexEarlier e' e) :
    lookupState (reconstruct_current_state l) t s =
      if isRevoked e then none else some e := by
  rw [reconstruct_current_state, lookupState_foldl]
  have hmem : e ∈ sortApprovals l := (mem_sortApprovals e l).mpr he
  cases hm : lastMatchOn t s (sortApprovals l) with
  | none =>
    have := lastMatchOn_isSome t s (sortApprovals l) e hmem ht hs
    rw [hm] at this
    simp at this
  | some m =>
    obtain ⟨hmmem, hmt, hms⟩ := lastMatchOn_mem t s (sortApprovals l) m hm
    have hmem_l : m ∈ l := (mem_sortApprovals m l).mp hmmem
    have hle : approvalLe e m = true :=
      lastMatchOn_ge t s (sortApprovals l) (pairwise_sortApprovals l)
        e hmem ht hs m hm
    have hme : m = e := by
      rcases hlatest m hmem_l hmt hms with h | h
      · exact h
      · exfalso
        simp only [approvalLe, Bool.or_eq_true, Bool.and_eq_true,
          decide_eq_true_eq] at hle
        rcases h with h1 | ⟨h1, h2⟩ <;> omega
    subst hme
    rfl

/-! ## Lemmas about the checksum functions -/

theorem toLowerByte_lowerHex (c : Nat) (h : isLowerHexByte c = true) :
    toLowerByte c = c := by
  simp only [isLowerHexByte, Bool.or_eq_true, Bool.and_eq_true,
    decide_eq_true_eq] at h
  unfold toLowerByte
  split <;> omega

theorem map_toLower_lowerHex (body : List Nat)
    (h : ∀ c ∈ body, isLowerHexByte c = true) :
    body.map toLowerByte = body := by
  induction body with
  | nil => rfl
  | cons c r ih =>
    rw [List.map_cons, toLowerByte_lowerHex c (h c (List.mem_cons_self c r)),
      ih (fun x hx => h x (List.mem_cons_of_mem c hx))]

theorem toLower_checksumChar (c x : Nat) (h : isLowerHexByte c = true) :
    toLowerByte (if isDigitByte c then c
      else if 8 ≤ x then toUpperByte c else toLowerByte c) = c := by
  simp only [isLowerHexByte, isDigitByte, Bool.or_eq_true, Bool.and_eq_true,
    decide_eq_true_eq] at h ⊢
  unfold toUpperByte toLowerByte
  split_ifs <;> omega

theorem map_toLower_checksumChars (nib : Nat → Nat) (i : Nat)
    (body : List Nat) (h : ∀ c ∈ body, isLowerHexByte c = true) :
    (checksumChars nib i body).map toLowerByte = body := by
  induction body generalizing i with
  | nil => rfl
  | cons c r ih =>
    rw [checksumChars, List.map_cons,
      toLower_checksumChar c (nib i) (h c (List.mem_cons_self c r)),
      ih (i + 1) (fun x hx => h x (List.mem_cons_of_mem c hx))]

theorem length_checksumChars (nib : Nat → Nat) (i : Nat) (body : List Nat) :
    (checksumChars nib i body).length = body.length := by
  induction body generalizing i with
  | nil => rfl
  | cons c r ih =>
    rw [checksumChars, List.length_cons, List.length_cons, ih (i + 1)]

theorem toLower_flipByte (c : Nat) :
    toLowerByte (flipByte c) = toLowerByte c := by
  unfold flipByte toLowerByte
  split_ifs <;> omega

theorem map_toLower_flipAt (k : Nat) (l : List Nat) :
    (flipAt k l).map toLowerByte = l.map toLowerByte := by
  induction l generalizing k with
  | nil => cases k <;> rfl
  | cons c r ih =>
    cases k with
    | zero => rw [flipAt, List.map_cons, List.map_cons, toLower_flipByte]
    | succ n => rw [flipAt, List.map_cons, List.map_cons, ih n]

theorem flipByte_ne (c : Nat) (h : isLetterByte c = true) : flipByte c ≠ c := by
  simp only [isLetterByte, Bool.or_eq_true, Bool.and_eq_true,
    decide_eq_true_eq] at h
  unfold flipByte
  split_ifs <;> omega

theorem flipAt_ne (k : Nat) (l : List Nat) (hk : k < l.length)
    (hl : isLetterByte (l.getD k 0) = true) : flipAt k l ≠ l := by
  induction l generalizing k with
  | nil => simp at hk
  | cons c r ih =>
    cases k with
    | zero =>
      rw [flipAt]
      intro h
      injection h with h1 h2
      exact flipByte_ne c (by simpa using hl) h1
    | succ n =>
      rw [flipAt]
      intro h
      injection h with h1 h2
      exact ih n (by simpa using hk) (by simpa using hl) h2

theorem to_checksum_of_prefixed (body : List Nat)
    (h : body.map toLowerByte = body) :
    to_checksum_address (48 :: 120 :: body) =
      48 :: 120 :: checksumChars (sha3Nibble body) 0 body := by
  show (48 :: 120 ::
      checksumChars (sha3Nibble (body.map toLowerByte)) 0 (body.map toLowerByte)) =
    _
  rw [h]

theorem not_upper_of_prefixed (rest : List Nat) :
    ¬ (48 :: 120 :: rest = (48 :: 120 :: rest).map toUpperByte) := by
  intro h
  rw [List.map_cons, List.map_cons] at h
  injection h with h1 h2
  injection h2 with h3 h4
  norm_num [toUpperByte] at h3

/-- For a lowercase hex body, validating its checksummed form succeeds:
either the checksum is all-lowercase and bypasses the check, or the
recomputed checksum of its lowercased body reproduces it exactly. -/
theorem validate_of_checksummed (body : List Nat)
    (hhex : ∀ c ∈ body, isLowerHexByte c = true) :
    validate_checksum (to_checksum_address (48 :: 120 :: body)) = true := by
  have hfix : body.map toLowerByte = body := map_toLower_lowerHex body hhex
  rw [to_checksum_of_prefixed body hfix]
  set ck := checksumChars (sha3Nibble body) 0 body with hck
  unfold validate_checksum
  by_cases hlow : (48 :: 120 :: ck) = (48 :: 120 :: ck).map toLowerByte
  · rw [if_pos (Or.inl hlow)]
  · rw [if_neg (not_or.mpr ⟨hlow, not_upper_of_prefixed ck⟩)]
    have hlower : ck.map toLowerByte = body :=
      map_toLower_checksumChars (sha3Nibble body) 0 body hhex
    have hself : to_checksum_address (48 :: 120 :: ck) = 48 :: 120 :: ck := by
      show (48 :: 120 ::
          checksumChars (sha3Nibble (ck.map toLowerByte)) 0 (ck.map toLowerByte)) =
        _
      rw [hlower, hck]
    rw [hself]
    simp

/-- Flipping the case of a letter of the checksummed form fails the
validation whenever the flipped address is not all-lowercase: the
flipped address is still not all-uppercase (the 0x prefix), and the
recomputed checksum is the unflipped original, which differs. -/
theorem validate_flip_mixed (body : List Nat) (k : Nat)
    (hhex : ∀ c ∈ body, isLowerHexByte c = true) (hk : k < body.length)
    (hletter : isLetterByte
      ((checksumChars (sha3Nibble body) 0 body).getD k 0) = true)
    (hmixed : ¬ (flipAt (k + 2) (to_checksum_address (48 :: 120 :: body)) =
      (flipAt (k + 2) (to_checksum_address (48 :: 120 :: body))).map
        toLowerByte)) :
    validate_checksum
      (flipAt (k + 2) (to_checksum_address (48 :: 120 :: body))) = false := by
  have hfix : body.map toLowerByte = body := map_toLower_lowerHex body hhex
  rw [to_checksum_of_prefixed body hfix] at hmixed ⊢
  set ck := checksumChars (sha3Nibble body) 0 body with hck
  have hflip : flipAt (k + 2) (48 :: 120 :: ck) = 48 :: 120 :: flipAt k ck := rfl
  rw [hflip] at hmixed ⊢
  unfold validate_checksum
  rw [if_neg (not_or.mpr ⟨hmixed, not_upper_of_prefixed (flipAt k ck)⟩)]
  have hlower : (flipAt k ck).map toLowerByte = body := by
    rw [map_toLower_flipAt, hck,
      map_toLower_checksumChars (sha3Nibble body) 0 body hhex]
  have hre : to_checksum_address (48 :: 120 :: flipAt k ck) = 48 :: 120 :: ck := by
    show (48 :: 120 ::
        checksumChars (sha3Nibble ((flipAt k ck).map toLowerByte)) 0
          ((flipAt k ck).map toLowerByte)) = _
    rw [hlower, hck]
  rw [hre]
  have hkck : k < ck.length := by
    rw [hck, length_checksumChars]
    exact hk
  have hne : flipAt k ck ≠ ck := flipAt_ne k ck hkck (hck ▸ hletter)
  have : ¬ (48 :: 120 :: flipAt k ck = 48 :: 120 :: ck) := by
    intro h
    injection h with h1 h2
    injection h2 with h3 h4
    exact hne h4
  simp [this]

/-! ## Lemmas about the log parser -/

theorem parse_afa_type (log : RawLog) (p : ParsedApproval)
    (h : parse_approval_for_all_event log = some p) :
    p.approval_type = ApprovalType.ERC721_ALL := by
  unfold parse_approval_for_all_event at h
  by_cases hlen : log.topics.length < 3
  · rw [if_pos hlen] at h
    exact absurd h (by simp)
  · rw [if_neg hlen] at h
    cases hbn : hexToNat? log.blockNumber <;>
      cases hli : hexToNat? log.logIndex <;> rw [hbn, hli] at h
    case neg.none.none | neg.none.some | neg.some.none => exact absurd h (by simp)
    case neg.some.some bn li =>
      cases hap : (if log.data ≠ "" ∧ log.data ≠ "0x" then
          (hexToNat? log.data).map (fun v => v == 1)
        else some true) with
      | none =>
        rw [hap] at h
        exact absurd h (by simp)
      | some approved =>
        rw [hap] at h
        simp only [Option.some.injEq] at h
        subst h
        rfl

theorem parse_ae_type (log : RawLog) (p : ParsedApproval)
    (h : parse_approval_event log = some p) :
    p.approval_type = ApprovalType.ERC20 ∨
      p.approval_type = ApprovalType.ERC721 := by
  unfold parse_approval_event at h
  by_cases hlen : log.topics.length < 3
  · rw [if_pos hlen] at h
    exact absurd h (by simp)
  · rw [if_neg hlen] at h
    cases hbn : hexToNat? log.blockNumber <;>
      cases hli : hexToNat? log.logIndex <;> rw [hbn, hli] at h
    case neg.none.none | neg.none.some | neg.some.none => exact absurd h (by simp)
    case neg.some.some bn li =>
      dsimp only at h
      by_cases h4 : log.topics.length = 4
      · rw [if_pos h4] at h
        cases htid : hexToNat? (log.topics.getD 3 "") with
        | none =>
          rw [htid] at h
          exact absurd h (by simp)
        | some token_id =>
          rw [htid] at h
          simp only [Option.some.injEq] at h
          subst h
          exact Or.inr rfl
      · rw [if_neg h4] at h
        cases hval : (if log.data ≠ "" ∧ log.data ≠ "0x" ∧ 66 ≤ log.data.length
            then hexToNat? log.data else some 0) with
        | none =>
          rw [hval] at h
          exact absurd h (by simp)
        | some value =>
          rw [hval] at h
          simp only [Option.some.injEq] at h
          subst h
          exact Or.inl rfl

/-! ## Claim C1: the unlimited-allowance threshold -/

/-- Claim C1, counterexample: at v = floor(0.9 * (2^256 - 1)) (written
with MAX_UINT256 = 2^256 - 1 as floor(9 * MAX_UINT256 / 10)), the spec
demands is_unlimited(v) = true, but both is_unlimited_allowance and the
ERC20 case of ParsedApproval.is_unlimited return false: the threshold
the code compares against is the larger float value of
MAX_UINT256 * 0.9. -/
theorem C1_counterexample :
    is_unlimited_allowance (9 * MAX_UINT256 / 10) = false ∧
    ParsedApproval.is_unlimited
      { token_address := "0xt", owner := "0xo", spender := "0xs",
        approval_type := ApprovalType.ERC20,
        value := some (9 * MAX_UINT256 / 10) } = false ∧
    9 * MAX_UINT256 / 10 < UNLIMITED_FLOAT_THRESHOLD := by
  refine ⟨by decide, by decide, by decide⟩

/-- Claim C1, amended: is_unlimited_allowance v and the ERC20 case of
ParsedApproval.is_unlimited both return true exactly when v is at least
8106479329266893 * 2^203, the IEEE-754 binary64 value of the Python
expression MAX_UINT256 * 0.9; this float threshold is strictly larger
than floor(0.9 * (2^256 - 1)), so the comparison is not the exact
integer-arithmetic threshold of the spec. -/
theorem C1_amended_threshold (v : Nat) :
    (is_unlimited_allowance v = true ↔ 8106479329266893 * 2 ^ 203 ≤ v) ∧
    (ParsedApproval.is_unlimited
      { token_address := "0xt", owner := "0xo", spender := "0xs",
        approval_type := ApprovalType.ERC20, value := some v } = true ↔
      8106479329266893 * 2 ^ 203 ≤ v) ∧
    9 * MAX_UINT256 / 10 < 8106479329266893 * 2 ^ 203 := by
  refine ⟨?_, ?_, by decide⟩
  · simp [is_unlimited_allowance, UNLIMITED_FLOAT_THRESHOLD]
  · show decide (UNLIMITED_FLOAT_THRESHOLD ≤ v) = true ↔ _
    simp [UNLIMITED_FLOAT_THRESHOLD]

/-! ## Claim C5: the risk scoring -/

/-- Claim C5, counterexample: on an ActiveApproval of kind ERC721
(single token) with is_unlimited true and a verified contract spender
aged 0 days, the spec table applies no factor at all (approval_for_all
requires kind ERC721_ALL or ERC1155_ALL), so the claimed score is 0;
calculate_risk applies the approval_for_all factor (weight 25) and
returns score 25. -/
theorem C5_counterexample :
    (calculate_risk
      { token := { address := "0xt" },
        spender := { address := "0xs", is_contract := true, verified := true },
        approval_type := ApprovalType.ERC721,
        is_unlimited := true }).score = 25 ∧
    (calculate_risk
      { token := { address := "0xt" },
        spender := { address := "0xs", is_contract := true, verified := true },
        approval_type := ApprovalType.ERC721,
        is_unlimited := true }).factors.map (fun f => f.name) =
      ["approval_for_all"] := by
  refine ⟨by decide, by decide⟩

set_option maxHeartbeats 1600000 in
/-- Claim C5, amended: calculate_risk scores min over 100 of the sum of
the weights of the applying factors, where approval_for_all (weight 25)
applies whenever is_unlimited holds and the kind is not ERC20 (this
includes the single-token ERC721 kind, not only ERC721_ALL and
ERC1155_ALL as the spec table states); the other factor conditions
match the table; the score is between 0 and 100; and the category is
SAFE for score at most 30, RISKY for score at most 60, DANGEROUS
otherwise. -/
theorem C5_amended_scoring (a : ActiveApproval) :
    (calculate_risk a).score =
      min ((if a.is_unlimited = true ∧ a.approval_type = ApprovalType.ERC20
              then 40 else 0) +
        (if a.is_unlimited = true ∧ a.approval_type ≠ ApprovalType.ERC20
          then 25 else 0) +
        (if a.spender.is_contract = false then 35 else 0) +
        (if a.spender.is_contract = true ∧ a.spender.verified = false
          then 20 else 0) +
        (if 365 < a.age_days then 25
          else if 180 < a.age_days then 15 else 0)) 100 ∧
    (calculate_risk a).score ≤ 100 ∧
    (calculate_risk a).category =
      (if (calculate_risk a).score ≤ 30 then RiskCategory.SAFE
       else if (calculate_risk a).score ≤ 60 then RiskCategory.RISKY
       else RiskCategory.DANGEROUS) := by
  obtain ⟨tok, sp, ty, araw, unl, bn, ts, age, tx⟩ := a
  obtain ⟨spa, spc, spn, spv⟩ := sp
  cases unl <;> cases spc <;> cases spv <;> cases ty <;>
    by_cases h365 : (365 : Int) < age <;>
      by_cases h180 : (180 : Int) < age <;>
        simp [calculate_risk, h365, h180]

/-! ## Claim C7: ERC20 parse of short data -/

/-- Claim C7, counterexample: a log with the Approval signature, exactly
3 topics and empty data (the 0x placeholder) is not skipped: the parser
returns an ERC20 record with value 0. The spec instead requires such a
log to be skipped. -/
theorem C7_counterexample :
    parse_approval_event
      { address := "0xTok", topics := ["0xe", "0xaaa", "0xbbb"],
        data := "0x" } =
      some { token_address := "0xtok", owner := "", spender := "",
             approval_type := ApprovalType.ERC20, value := some 0 } := by
  decide

/-- Claim C7, amended: for a log with exactly 3 topics whose integer
fields parse, the result is an ERC20 record; when the data field is
empty, 0x, or shorter than a 32-byte word (66 characters with the 0x
prefix) the value is 0 rather than the log being skipped; when the data
is at least a 32-byte word, the whole data field parses as the value. -/
theorem C7_amended_short_data (log : RawLog) (bn li : Nat)
    (hlen3 : log.topics.length = 3)
    (hbn : hexToNat? log.blockNumber = some bn)
    (hli : hexToNat? log.logIndex = some li) :
    (¬ (log.data ≠ "" ∧ log.data ≠ "0x" ∧ 66 ≤ log.data.length) →
      parse_approval_event log =
        some { token_address := pyLower log.address,
               owner := unpad_address (log.topics.getD 1 ""),
               spender := unpad_address (log.topics.getD 2 ""),
               approval_type := ApprovalType.ERC20, value := some 0,
               block_number := bn, tx_hash := log.transactionHash,
               log_index := li }) ∧
    (∀ v : Nat, log.data ≠ "" → log.data ≠ "0x" → 66 ≤ log.data.length →
      hexToNat? log.data = some v →
      parse_approval_event log =
        some { token_address := pyLower log.address,
               owner := unpad_address (log.topics.getD 1 ""),
               spender := unpad_address (log.topics.getD 2 ""),
               approval_type := ApprovalType.ERC20, value := some v,
               block_number := bn, tx_hash := log.transactionHash,
               log_index := li }) := by
  have hnl : ¬ log.topics.length < 3 := by omega
  have h4 : ¬ log.topics.length = 4 := by omega
  constructor
  · intro hdata
    unfold parse_approval_event
    rw [if_neg hnl, hbn, hli]
    dsimp only
    rw [if_neg h4, if_neg hdata]
  · intro v h1 h2 h3 hv
    unfold parse_approval_event
    rw [if_neg hnl, hbn, hli]
    dsimp only
    rw [if_neg h4, if_pos ⟨h1, h2, h3⟩, hv]

/-- Claim C7, witness for the amended theorem at a concrete log with
3 topics, block number 5, log index 2 and empty data. -/
theorem C7_witness :
    parse_approval_event
      { address := "0xT", topics := ["0xs", "0xo", "0xp"],
        blockNumber := "0x5", logIndex := "0x2", data := "0x" } =
      some { token_address := "0xt", owner := "", spender := "",
             approval_type := ApprovalType.ERC20, value := some 0,
             block_number := 5, log_index := 2 } :=
  (C7_amended_short_data
    { address := "0xT", topics := ["0xs", "0xo", "0xp"],
      blockNumber := "0x5", logIndex := "0x2", data := "0x" }
    5 2 (by decide) (by decide) (by decide)).1 (by decide)

/-! ## Claim C10: blanket approvals are always reported as ERC721 -/

/-- Claim C10: every record parsed from an ApprovalForAll log has
approval_type ERC721_ALL; no record produced by parse_approval_logs has
approval_type ERC1155_ALL; and the scanner token-type classification
maps ERC721_ALL to the string ERC721, so every blanket approval,
including one granted on an ERC-1155 contract, is reported as ERC721. -/
theorem C10_blanket_always_erc721 :
    (∀ (log : RawLog) (p : ParsedApproval),
      parse_approval_for_all_event log = some p →
        p.approval_type = ApprovalType.ERC721_ALL) ∧
    (∀ (logs : ApprovalLogsResult) (p : ParsedApproval),
      p ∈ parse_approval_logs logs →
        p.approval_type ≠ ApprovalType.ERC1155_ALL) ∧
    tokenTypeFor ApprovalType.ERC721_ALL = "ERC721" := by
  refine ⟨parse_afa_type, ?_, rfl⟩
  intro logs p hp
  unfold parse_approval_logs at hp
  rcases List.mem_append.mp hp with h | h
  · rcases List.mem_filterMap.mp h with ⟨log, hmem, hparse⟩
    rcases parse_ae_type log p hparse with h20 | h721
    · rw [h20]
      simp
    · rw [h721]
      simp
  · rcases List.mem_filterMap.mp h with ⟨log, hmem, hparse⟩
    rw [parse_afa_type log p hparse]
    simp

/-- Claim C10, witness: a concrete ApprovalForAll log parses to a
record with approval_type ERC721_ALL, and that record, produced through
parse_approval_logs, is not ERC1155_ALL. -/
theorem C10_witness :
    ({ token_address := "", owner := "", spender := "",
       approval_type := ApprovalType.ERC721_ALL } :
      ParsedApproval).approval_type = ApprovalType.ERC721_ALL ∧
    ({ token_address := "", owner := "", spender := "",
       approval_type := ApprovalType.ERC721_ALL } :
      ParsedApproval).approval_type ≠ ApprovalType.ERC1155_ALL :=
  ⟨C10_blanket_always_erc721.1 { topics := ["0xa", "0xb", "0xc"] } _ (by decide),
   C10_blanket_always_erc721.2.1
     { approvals := [], approval_for_all := [{ topics := ["0xa", "0xb", "0xc"] }] }
     _ (by decide)⟩

/-! ## Claim C2: keying of single-token ERC721 approvals -/

/-- Claim C2, counterexample: an ERC721 single-token approval of token
42 to spender 0xs at block 1, followed by an approval of the same token
42 to the zero address at block 2. The claim says the second event
deletes the key for the first; instead the reconstructed state keeps
the entry for 0xs and adds a separate entry under the zero address (the
state has no token_id component in its keys). -/
theorem C2_counterexample :
    reconstruct_current_state
      [{ token_address := "0xt", owner := "0xo", spender := "0xs",
         approval_type := ApprovalType.ERC721, token_id := some 42,
         block_number := 1 },
       { token_address := "0xt", owner := "0xo",
         spender := "0x0000000000000000000000000000000000000000",
         approval_type := ApprovalType.ERC721, token_id := some 42,
         block_number := 2 }] =
      [("0xt",
        [("0xs",
          { token_address := "0xt", owner := "0xo", spender := "0xs",
            approval_type := ApprovalType.ERC721, token_id := some 42,
            block_number := 1 }),
         ("0x0000000000000000000000000000000000000000",
          { token_address := "0xt", owner := "0xo",
            spender := "0x0000000000000000000000000000000000000000",
            approval_type := ApprovalType.ERC721, token_id := some 42,
            block_number := 2 })])] := by
  decide

/-- Claim C2, amended: the reconstruction keys every record, including
ERC721 single-token approvals, by (token_address, spender) only. An
approval of the same tokenId to the zero address is an upsert under the
zero-address spender key: it leaves the original spender entry in place
and adds a separate entry for the zero address. -/
theorem C2_amended_keying (t s z o1 o2 : String) (id1 b1 b2 i1 i2 : Nat)
    (hsz : s ≠ z) :
    lookupState (reconstruct_current_state
      [{ token_address := t, owner := o1, spender := s,
         approval_type := ApprovalType.ERC721, token_id := some id1,
         block_number := b1, log_index := i1 },
       { token_address := t, owner := o2, spender := z,
         approval_type := ApprovalType.ERC721, token_id := some id1,
         block_number := b2, log_index := i2 }]) t s =
      some { token_address := t, owner := o1, spender := s,
             approval_type := ApprovalType.ERC721, token_id := some id1,
             block_number := b1, log_index := i1 } ∧
    lookupState (reconstruct_current_state
      [{ token_address := t, owner := o1, spender := s,
         approval_type := ApprovalType.ERC721, token_id := some id1,
         block_number := b1, log_index := i1 },
       { token_address := t, owner := o2, spender := z,
         approval_type := ApprovalType.ERC721, token_id := some id1,
         block_number := b2, log_index := i2 }]) t z =
      some { token_address := t, owner := o2, spender := z,
             approval_type := ApprovalType.ERC721, token_id := some id1,
             block_number := b2, log_index := i2 } := by
  constructor
  · exact reconstruct_lookup_latest _ _ t s
      (List.mem_cons_self _ _) rfl rfl
      (by
        intro e' he' ht' hs'
        rcases List.mem_cons.mp he' with h | h
        · exact Or.inl h
        · rcases List.mem_cons.mp h with h2 | h2
          · exfalso
            subst h2
            exact hsz hs'.symm
          · exact absurd h2 (List.not_mem_nil e'))
  · exact reconstruct_lookup_latest _ _ t z
      (List.mem_cons_of_mem _ (List.mem_cons_self _ _)) rfl rfl
      (by
        intro e' he' ht' hs'
        rcases List.mem_cons.mp he' with h | h
        · exfalso
          subst h
          exact hsz hs'
        · rcases List.mem_cons.mp h with h2 | h2
          · exact Or.inl h2
          · exact absurd h2 (List.not_mem_nil e'))

/-- Claim C2, witness for the amended theorem at concrete addresses. -/
theorem C2_witness :
    lookupState (reconstruct_current_state
      [{ token_address := "0xt", owner := "0xa", spender := "0xs",
         approval_type := ApprovalType.ERC721, token_id := some 42,
         block_number := 1, log_index := 0 },
       { token_address := "0xt", owner := "0xa",
         spender := "0x0000000000000000000000000000000000000000",
         approval_type := ApprovalType.ERC721, token_id := some 42,
         block_number := 2, log_index := 0 }]) "0xt" "0xs" =
      some { token_address := "0xt", owner := "0xa", spender := "0xs",
             approval_type := ApprovalType.ERC721, token_id := some 42,
             block_number := 1, log_index := 0 } :=
  (C2_amended_keying "0xt" "0xs" "0x0000000000000000000000000000000000000000"
    "0xa" "0xa" 42 1 2 0 0 (by decide)).1

/-! ## Claim C3: latest-write-wins -/

/-- Claim C3, counterexample: three ERC721 single-token approvals on
the same (token, spender): e1 and e2 concern tokenId 1 at blocks 1 and
2 (so on the spec ApprovalKey (token, spender, 1), e2 is the later
write and the state should reflect e2); e3 concerns tokenId 2 at block
3. Because the reconstructed state is keyed by (token, spender) only,
the final state holds exactly e3, and no entry reflects e2. -/
theorem C3_counterexample :
    reconstruct_current_state
      [{ token_address := "0xt", owner := "0xo", spender := "0xs",
         approval_type := ApprovalType.ERC721, token_id := some 1,
         block_number := 1 },
       { token_address := "0xt", owner := "0xo", spender := "0xs",
         approval_type := ApprovalType.ERC721, token_id := some 1,
         block_number := 2 },
       { token_address := "0xt", owner := "0xo", spender := "0xs",
         approval_type := ApprovalType.ERC721, token_id := some 2,
         block_number := 3 }] =
      [("0xt",
        [("0xs",
          { token_address := "0xt", owner := "0xo", spender := "0xs",
            approval_type := ApprovalType.ERC721, token_id := some 2,
            block_number := 3 })])] ∧
    ({ token_address := "0xt", owner := "0xo", spender := "0xs",
       approval_type := ApprovalType.ERC721, token_id := some 2,
       block_number := 3 } : ParsedApproval) ≠
      { token_address := "0xt", owner := "0xo", spender := "0xs",
        approval_type := ApprovalType.ERC721, token_id := some 1,
        block_number := 2 } := by
  refine ⟨by decide, by decide⟩

/-- Claim C3, amended: latest-write-wins holds for the key the code
actually uses, (token_address, spender), with no token_id component:
if e is an event of the input on that key and every other input event
on the same key is strictly earlier in the lexicographic
(block_number, log_index) order, then the reconstructed state at that
key is exactly the effect of e: the key is absent when e is a
revocation and maps to e when e is an approval. Ties between equal
(block_number, log_index) pairs are resolved by input order because
the insertion sort used in the embedding, like the Python stable sort,
keeps equal keys in input order. -/
theorem C3_amended_latest_write_wins (l : List ParsedApproval)
    (e : ParsedApproval) (t s : String) (he : e ∈ l)
    (ht : e.token_address = t) (hs : e.spender = s)
    (hlatest : ∀ e' ∈ l, e'.token_address = t → e'.spender = s →
      e' = e ∨ lexEarlier e' e) :
    lookupState (reconstruct_current_state l) t s =
      if isRevoked e then none else some e :=
  reconstruct_lookup_latest l e t s he ht hs hlatest

/-- Claim C3, witness: two ERC20 approvals on the same key at blocks 1
and 2; the reconstructed state maps the key to the later one. -/
theorem C3_witness :
    lookupState (reconstruct_current_state
      [{ token_address := "0xt", owner := "0xo", spender := "0xs",
         approval_type := ApprovalType.ERC20, value := some 7,
         block_number := 1 },
       { token_address := "0xt", owner := "0xo", spender := "0xs",
         approval_type := ApprovalType.ERC20, value := some 9,
         block_number := 2 }]) "0xt" "0xs" =
      some { token_address := "0xt", owner := "0xo", spender := "0xs",
             approval_type := ApprovalType.ERC20, value := some 9,
             block_number := 2 } :=
  (C3_amended_latest_write_wins _
    { token_address := "0xt", owner := "0xo", spender := "0xs",
      approval_type := ApprovalType.ERC20, value := some 9,
      block_number := 2 }
    "0xt" "0xs" (by decide) rfl rfl (by decide)).trans (by decide)

/-! ## Claim C4: revocation idempotence -/

/-- Claim C4, counterexample: the stream holds one ERC20 approval with
value 5 at block 2; the appended revocation (value 0) carries block 1.
The revocation sorts before the approval, so the reconstructed state
still has the entry: appending a revocation does not clear the key
regardless of the events already in the stream. -/
theorem C4_counterexample :
    lookupState (reconstruct_current_state
      [{ token_address := "0xt", owner := "0xo", spender := "0xs",
         approval_type := ApprovalType.ERC20, value := some 5,
         block_number := 2 },
       { token_address := "0xt", owner := "0xo", spender := "0xs",
         approval_type := ApprovalType.ERC20, value := some 0,
         block_number := 1 }]) "0xt" "0xs" =
      some { token_address := "0xt", owner := "0xo", spender := "0xs",
             approval_type := ApprovalType.ERC20, value := some 5,
             block_number := 2 } := by
  decide

/-- Claim C4, amended: appending an ERC20 revocation (value 0) for
(token, spender) to a stream S clears that key in the reconstructed
state, provided every event of S on the same (token, spender) key is
strictly earlier than the revocation in the (block_number, log_index)
order (as is the case for a revocation appended from a later block). -/
theorem C4_amended_revocation (S : List ParsedApproval)
    (rev : ParsedApproval) (t s : String)
    (htype : rev.approval_type = ApprovalType.ERC20)
    (hvalue : rev.value = some 0)
    (ht : rev.token_address = t) (hs : rev.spender = s)
    (hlater : ∀ e' ∈ S, e'.token_address = t → e'.spender = s →
      lexEarlier e' rev) :
    lookupState (reconstruct_current_state (S ++ [rev])) t s = none := by
  have hrev : isRevoked rev = true := by
    simp [isRevoked, htype, hvalue]
  have h := reconstruct_lookup_latest (S ++ [rev]) rev t s
    (List.mem_append.mpr (Or.inr (List.mem_cons_self rev [])))
    ht hs
    (by
      intro e' he' ht' hs'
      rcases List.mem_append.mp he' with hS | hsing
      · exact Or.inr (hlater e' hS ht' hs')
      · exact Or.inl (List.mem_singleton.mp hsing))
  rw [h, if_pos hrev]

/-- Claim C4, witness: an approval at block 1 followed by an appended
revocation at block 2 leaves no entry for the key. -/
theorem C4_witness :
    lookupState (reconstruct_current_state
      ([{ token_address := "0xt", owner := "0xo", spender := "0xs",
          approval_type := ApprovalType.ERC20, value := some 5,
          block_number := 1 }] ++
        [{ token_address := "0xt", owner := "0xo", spender := "0xs",
           approval_type := ApprovalType.ERC20, value := some 0,
           block_number := 2 }])) "0xt" "0xs" = none :=
  C4_amended_revocation _ _ "0xt" "0xs" rfl rfl rfl rfl (by decide)

/-! ## Claim C6: spender metadata and the allowlist -/

/-- Claim C6, counterexample: the Permit2 address sits in the
KNOWN_SPENDERS allowlist with its display name, yet the spender
metadata the scanner attaches (get_spender_info, here with an oracle
whose code probe returns contract bytecode) carries verified = false
and no name: the scanner never consults the allowlist. -/
theorem C6_counterexample :
    lookupStr KNOWN_SPENDERS "0x000000000022d473030f116ddee9f6b43ac78ba3" =
      some "Uniswap: Permit2" ∧
    get_spender_info
      { blockNumberForLogs := Except.ok "0x0",
        blockNumberForScan := Except.ok "0x0",
        approvalLogsAt := fun _ _ => Except.ok (some []),
        approvalForAllLogsAt := fun _ _ => Except.ok (some []),
        allowanceOf := fun _ _ _ => Except.ok (some "0x0"),
        approvedForAllOf := fun _ _ _ => Except.ok (some "0x0"),
        codeOf := fun _ => Except.ok (some "0x6080"),
        timestampOf := fun _ => Except.ok 0,
        symbolOf := fun _ => none,
        nameOf := fun _ => none,
        decimalsOf := fun _ => 18 }
      "0x000000000022d473030f116ddee9f6b43ac78ba3" =
      Except.ok { address := "0x000000000022d473030f116ddee9f6b43ac78ba3",
                  is_contract := true, name := none, verified := false } := by
  exact ⟨by decide, rfl⟩

/-- Claim C6, amended: the spender metadata attached by the scanner
always has verified = false and no display name, for every oracle and
every address, allowlisted or not; the SpenderAnalyzer allowlist
lookup, which the scanner does not invoke, would return verified = true
and the allowlist display name for every allowlisted address. -/
theorem C6_amended_spender_metadata :
    (∀ (o : RpcOracle) (addr : String) (info : SpenderInfo),
      get_spender_info o addr = Except.ok info →
        info.verified = false ∧ info.name = none) ∧
    (∀ (addr nm : String),
      lookupStr KNOWN_SPENDERS (pyLower addr) = some nm →
        (analyze addr).verified = true ∧
          (analyze addr).contract_name = some nm) := by
  constructor
  · intro o addr info h
    unfold get_spender_info at h
    cases hic : is_contract o addr with
    | error e =>
      rw [hic] at h
      exact absurd h (by simp)
    | ok ic =>
      rw [hic] at h
      simp only [Except.ok.injEq] at h
      subst h
      exact ⟨rfl, rfl⟩
  · intro addr nm h
    unfold analyze
    dsimp only
    rw [h]
    exact ⟨rfl, rfl⟩

/-- Claim C6, witness: both halves of the amended theorem at concrete
inputs: the analyzer classifies Permit2 as verified with its allowlist
name, while the scanner metadata for any address, produced through a
concrete oracle, is unverified and unnamed. -/
theorem C6_witness :
    (analyze "0x000000000022d473030f116ddee9f6b43ac78ba3").verified = true ∧
    (analyze "0x000000000022d473030f116ddee9f6b43ac78ba3").contract_name =
      some "Uniswap: Permit2" ∧
    ({ address := "0xabc", is_contract := true, name := none,
       verified := false } : SpenderInfo).verified = false :=
  ⟨(C6_amended_spender_metadata.2 "0x000000000022d473030f116ddee9f6b43ac78ba3"
      "Uniswap: Permit2" (by decide)).1,
   (C6_amended_spender_metadata.2 "0x000000000022d473030f116ddee9f6b43ac78ba3"
      "Uniswap: Permit2" (by decide)).2,
   (C6_amended_spender_metadata.1
      { blockNumberForLogs := Except.ok "0x0",
        blockNumberForScan := Except.ok "0x0",
        approvalLogsAt := fun _ _ => Except.ok (some []),
        approvalForAllLogsAt := fun _ _ => Except.ok (some []),
        allowanceOf := fun _ _ _ => Except.ok (some "0x0"),
        approvedForAllOf := fun _ _ _ => Except.ok (some "0x0"),
        codeOf := fun _ => Except.ok (some "0x6080"),
        timestampOf := fun _ => Except.ok 0,
        symbolOf := fun _ => none,
        nameOf := fun _ => none,
        decimalsOf := fun _ => 18 }
      "0xabc"
      { address := "0xabc", is_contract := true, name := none,
        verified := false }
      rfl).1⟩

/-! ## Claim C8: failure isolation in the log fetch -/

/-- Claim C8: in get_approval_logs, a failing Approval query leaves the
approvals list empty, a failing ApprovalForAll query leaves the
approval_for_all list empty, a successful query delivers its logs
independently of the other family, and scan returns an ok list for
every oracle, so no combination of RPC failures makes the scan raise. -/
theorem C8_failure_isolation (o : RpcOracle) (address : String)
    (current_time : Int) :
    ((∀ p fb, o.approvalLogsAt p fb = Except.error ()) →
      (get_approval_logs o address).approvals = []) ∧
    ((∀ p fb, o.approvalForAllLogsAt p fb = Except.error ()) →
      (get_approval_logs o address).approval_for_all = []) ∧
    (∀ ls, (∀ p fb, o.approvalLogsAt p fb = Except.ok (some ls)) →
      (get_approval_logs o address).approvals = ls) ∧
    (∀ ls, (∀ p fb, o.approvalForAllLogsAt p fb = Except.ok (some ls)) →
      (get_approval_logs o address).approval_for_all = ls) ∧
    (∃ l, scan o address current_time = Except.ok l) := by
  refine ⟨?_, ?_, ?_, ?_, ⟨_, rfl⟩⟩
  · intro h
    simp [get_approval_logs, h]
  · intro h
    simp [get_approval_logs, h]
  · intro ls h
    simp [get_approval_logs, h]
  · intro ls h
    simp [get_approval_logs, h]

/-- Claim C8, witness: a concrete oracle whose Approval query fails
while the ApprovalForAll query returns one log: the approvals family is
empty, the other family is delivered, and the scan still returns ok. -/
theorem C8_witness :
    (get_approval_logs
      { blockNumberForLogs := Except.error (),
        blockNumberForScan := Except.error (),
        approvalLogsAt := fun _ _ => Except.error (),
        approvalForAllLogsAt := fun _ _ =>
          Except.ok (some [{ topics := ["0xa", "0xb", "0xc"] }]),
        allowanceOf := fun _ _ _ => Except.error (),
        approvedForAllOf := fun _ _ _ => Except.error (),
        codeOf := fun _ => Except.error (),
        timestampOf := fun _ => Except.error (),
        symbolOf := fun _ => none,
        nameOf := fun _ => none,
        decimalsOf := fun _ => 18 }
      "0xAbC").approvals = [] ∧
    (get_approval_logs
      { blockNumberForLogs := Except.error (),
        blockNumberForScan := Except.error (),
        approvalLogsAt := fun _ _ => Except.error (),
        approvalForAllLogsAt := fun _ _ =>
          Except.ok (some [{ topics := ["0xa", "0xb", "0xc"] }]),
        allowanceOf := fun _ _ _ => Except.error (),
        approvedForAllOf := fun _ _ _ => Except.error (),
        codeOf := fun _ => Except.error (),
        timestampOf := fun _ => Except.error (),
        symbolOf := fun _ => none,
        nameOf := fun _ => none,
        decimalsOf := fun _ => 18 }
      "0xAbC").approval_for_all = [{ topics := ["0xa", "0xb", "0xc"] }] ∧
    (∃ l, scan
      { blockNumberForLogs := Except.error (),
        blockNumberForScan := Except.error (),
        approvalLogsAt := fun _ _ => Except.error (),
        approvalForAllLogsAt := fun _ _ =>
          Except.ok (some [{ topics := ["0xa", "0xb", "0xc"] }]),
        allowanceOf := fun _ _ _ => Except.error (),
        approvedForAllOf := fun _ _ _ => Except.error (),
        codeOf := fun _ => Except.error (),
        timestampOf := fun _ => Except.error (),
        symbolOf := fun _ => none,
        nameOf := fun _ => none,
        decimalsOf := fun _ => 18 }
      "0xAbC" 1000 = Except.ok l) :=
  ⟨(C8_failure_isolation
      { blockNumberForLogs := Except.error (),
        blockNumberForScan := Except.error (),
        approvalLogsAt := fun _ _ => Except.error (),
        approvalForAllLogsAt := fun _ _ =>
          Except.ok (some [{ topics := ["0xa", "0xb", "0xc"] }]),
        allowanceOf := fun _ _ _ => Except.error (),
        approvedForAllOf := fun _ _ _ => Except.error (),
        codeOf := fun _ => Except.error (),
        timestampOf := fun _ => Except.error (),
        symbolOf := fun _ => none,
        nameOf := fun _ => none,
        decimalsOf := fun _ => 18 }
      "0xAbC" 1000).1 (fun _ _ => rfl),
   (C8_failure_isolation
      { blockNumberForLogs := Except.error (),
        blockNumberForScan := Except.error (),
        approvalLogsAt := fun _ _ => Except.error (),
        approvalForAllLogsAt := fun _ _ =>
          Except.ok (some [{ topics := ["0xa", "0xb", "0xc"] }]),
        allowanceOf := fun _ _ _ => Except.error (),
        approvedForAllOf := fun _ _ _ => Except.error (),
        codeOf := fun _ => Except.error (),
        timestampOf := fun _ => Except.error (),
        symbolOf := fun _ => none,
        nameOf := fun _ => none,
        decimalsOf := fun _ => 18 }
      "0xAbC" 1000).2.2.2.1 [{ topics := ["0xa", "0xb", "0xc"] }]
      (fun _ _ => rfl),
   (C8_failure_isolation
      { blockNumberForLogs := Except.error (),
        blockNumberForScan := Except.error (),
        approvalLogsAt := fun _ _ => Except.error (),
        approvalForAllLogsAt := fun _ _ =>
          Except.ok (some [{ topics := ["0xa", "0xb", "0xc"] }]),
        allowanceOf := fun _ _ _ => Except.error (),
        approvedForAllOf := fun _ _ _ => Except.error (),
        codeOf := fun _ => Except.error (),
        timestampOf := fun _ => Except.error (),
        symbolOf := fun _ => none,
        nameOf := fun _ => none,
        decimalsOf := fun _ => 18 }
      "0xAbC" 1000).2.2.2.2⟩

/-! ## Claim C9: checksum round-trip and case flips -/

set_option maxRecDepth 1000000 in
set_option maxHeartbeats 4000000 in
/-- Claim C9, counterexample: for the lowercase address 0xa000...0 (one
letter a, 39 zeros), the checksummed form is 0xA000...0, whose only
letter position is index 2 and is uppercase. Flipping that single
letter position yields the all-lowercase original address, which
validate_checksum accepts through its all-lowercase bypass: this
single-letter case flip does not fail validation, contradicting the
claim. -/
theorem C9_counterexample :
    isLetterByte ((to_checksum_address
      (48 :: 120 :: 97 :: List.replicate 39 48)).getD 2 0) = true ∧
    flipAt 2 (to_checksum_address (48 :: 120 :: 97 :: List.replicate 39 48)) =
      48 :: 120 :: 97 :: List.replicate 39 48 ∧
    validate_checksum (flipAt 2 (to_checksum_address
      (48 :: 120 :: 97 :: List.replicate 39 48))) = true := by
  refine ⟨by decide, by decide, by decide⟩

/-- Claim C9, amended: for every valid lowercase address (0x followed
by a 40-character lowercase hex body), validating its checksummed form
succeeds; and flipping the case of a single letter position of the
checksummed form fails validation whenever the flipped string is not
all-lowercase (the all-lowercase case, reachable exactly when the
flipped letter was the only uppercase letter of the checksum, passes
through the lowercase bypass of validate_checksum instead, as the
counterexample shows). -/
theorem C9_amended_checksum (body : List Nat) (k : Nat)
    (_hlen : body.length = 40)
    (hhex : ∀ c ∈ body, isLowerHexByte c = true)
    (hk : k < body.length)
    (hletter : isLetterByte
      ((checksumChars (sha3Nibble body) 0 body).getD k 0) = true)
    (hmixed : ¬ (flipAt (k + 2) (to_checksum_address (48 :: 120 :: body)) =
      (flipAt (k + 2) (to_checksum_address (48 :: 120 :: body))).map
        toLowerByte)) :
    validate_checksum (to_checksum_address (48 :: 120 :: body)) = true ∧
    validate_checksum (flipAt (k + 2)
      (to_checksum_address (48 :: 120 :: body))) = false :=
  ⟨validate_of_checksummed body hhex,
   validate_flip_mixed body k hhex hk hletter hmixed⟩

set_option maxRecDepth 1000000 in
set_option maxHeartbeats 4000000 in
/-- Claim C9, witness: the amended theorem applied to the lowercase
address 0xb000...0 at letter position 0 of the body: its checksum is
the all-lowercase 0xb000...0 itself, which validates, and flipping the
letter b to B gives a mixed-case address that fails validation. -/
theorem C9_witness :
    validate_checksum (to_checksum_address
      (48 :: 120 :: 98 :: List.replicate 39 48)) = true ∧
    validate_checksum (flipAt 2 (to_checksum_address
      (48 :: 120 :: 98 :: List.replicate 39 48))) = false :=
  C9_amended_checksum (98 :: List.replicate 39 48) 0 (by decide) (by decide)
    (by decide) (by decide) (by decide)
